import Mathlib

/-!
# SanctumWriter — council review pipeline, verified embedding

Shallow embedding of the multi-agent review orchestration core of the
SanctumWriter repository:

* the Feedback Parser (`parseFeedback` and its strategy cascade) from
  `src/lib/council/reviewPipeline.ts`,
* the Reviewer Task Runner (`runReviewer`) and the Review Orchestrator
  (`runFullCouncilReview`) from the same module,
* the Editor Synthesis stage (`runEditorSynthesis`),
* the Model Residency Controller (`ensureModelLoaded`, `unloadModel`,
  `loadModel`) from `src/lib/llm/modelManager.ts`.

Modelling conventions:

* Text is `List Char`.  JavaScript strings are UTF-16 code-unit sequences;
  on the ASCII inputs exercised here the two agree.
* The JavaScript regular expressions used by the source are translated into
  explicit leftmost-match scanners with the same greedy/lazy backtracking
  behaviour on the relevant inputs.  The regex class `\s` is modelled as
  the four whitespace characters space, tab, CR, LF (JavaScript also counts
  a handful of rarer code points; none of the source patterns depend on
  them).
* `JSON.parse` is modelled by an executable recursive-descent parser over a
  `Json` value type.  JSON numbers are modelled as integers: a numeral with
  a fraction or exponent part makes the modelled parse fail, where
  JavaScript would succeed; line numbers, the only numeric payload the
  pipeline reads, are integral.
* Network effects (fetch against the Ollama gateway) are modelled by
  oracle arguments: each reviewer's raw response is `some text`, and a
  transport failure (network error or non-2xx response, which the source
  turns into a thrown exception) is `none`.
* The global zustand council store (`useCouncilStore`, `types/council`) is
  not part of the provided sources; its state and mutators are modelled
  from the spec where noted, and the pipeline functions thread that state
  explicitly.
-/

/-- Whitespace as accepted by `JSON.parse` and used for the `\s` regex
class in this model: space, tab, carriage return, line feed. -/
def jsWs (c : Char) : Bool :=
  c = ' ' || c = '\t' || c = '\r' || c = '\n'

/-- Line terminators that the JavaScript regex `.` does not match. -/
def isLineTerm (c : Char) : Bool :=
  c = '\n' || c = '\r'

/-- `String.prototype.trim`: strip leading and trailing whitespace. -/
def jsTrim (cs : List Char) : List Char :=
  ((cs.dropWhile jsWs).reverse.dropWhile jsWs).reverse

/-- ASCII lower-casing, modelling `String.prototype.toLowerCase` on the
ASCII inputs the pipeline handles. -/
def jsToLower (c : Char) : Char := c.toLower

/-- `String.prototype.includes`: `needle` occurs as a contiguous substring
of `hay`. -/
def containsSub (needle hay : List Char) : Bool :=
  hay.tails.any (fun t => needle.isPrefixOf t)

/-- `content.split('\n')` — always returns at least one piece. -/
def splitNl : List Char → List (List Char)
  | [] => [[]]
  | c :: cs =>
    if c = '\n' then [] :: splitNl cs
    else
      match splitNl cs with
      | g :: gs => (c :: g) :: gs
      | [] => [[c]]

/-- `parseInt(ds, 10)` on a non-empty digit string. -/
def digitsToNat (ds : List Char) : Nat :=
  ds.foldl (fun n c => 10 * n + (c.toNat - '0'.toNat)) 0

/-! ## JSON values and `JSON.parse` -/

/-- Runtime JSON values as produced by `JSON.parse`.  Numbers are modelled
as integers (see the header note). -/
inductive Json where
  | null
  | bool (b : Bool)
  | num (n : Int)
  | str (s : List Char)
  | arr (elems : List Json)
  | obj (fields : List (List Char × Json))

/-- Recognizes the JSON `null` value. -/
def jsonIsNull : Json → Bool
  | Json.null => true
  | _ => false

/-- JavaScript truthiness of a JSON value. -/
def jsTruthy : Json → Bool
  | Json.null => false
  | Json.bool b => b
  | Json.num n => n ≠ 0
  | Json.str s => s ≠ []
  | Json.arr _ => true
  | Json.obj _ => true

/-- Property access `obj[key]` on a parsed JSON value: on an object the
last binding for the key wins (as in JavaScript object literals built by
`JSON.parse`); on any other value every property read yields `undefined`,
modelled as `none`. -/
def jsGetField (j : Json) (k : List Char) : Option Json :=
  match j with
  | Json.obj fields => fields.foldl (fun acc p => if p.1 = k then some p.2 else acc) none
  | _ => none

/-- Parse a JSON string body after the opening quote; returns the decoded
characters and the rest of the input after the closing quote. -/
def jsonEscChar (e : Char) : Option Char :=
  if e = '"' then some '"'
  else if e = '\\' then some '\\'
  else if e = '/' then some '/'
  else if e = 'n' then some '\n'
  else if e = 't' then some '\t'
  else if e = 'r' then some '\r'
  else if e = 'b' then some (Char.ofNat 8)
  else if e = 'f' then some (Char.ofNat 12)
  else none

/-- One hexadecimal digit of a `\u` escape. -/
def jsonHexDigit (h : Char) : Option Nat :=
  if h.isDigit then some (h.toNat - '0'.toNat)
  else if 'a' ≤ h ∧ h ≤ 'f' then some (h.toNat - 'a'.toNat + 10)
  else if 'A' ≤ h ∧ h ≤ 'F' then some (h.toNat - 'A'.toNat + 10)
  else none

/-- Parse a JSON string body after the opening quote; returns the decoded
characters and the rest of the input after the closing quote. -/
def jsonString : List Char → Option (List Char × List Char)
  | [] => none
  | '"' :: rest => some ([], rest)
  | '\\' :: 'u' :: h1 :: h2 :: h3 :: h4 :: rest =>
    match jsonHexDigit h1, jsonHexDigit h2, jsonHexDigit h3, jsonHexDigit h4 with
    | some a, some b, some c, some d =>
      (jsonString rest).map (fun p => (Char.ofNat (((a * 16 + b) * 16 + c) * 16 + d) :: p.1, p.2))
    | _, _, _, _ => none
  | '\\' :: e :: rest =>
    match jsonEscChar e with
    | some d => (jsonString rest).map (fun p => (d :: p.1, p.2))
    | none => none
  | c :: rest => (jsonString rest).map (fun p => (c :: p.1, p.2))

/-- Parse a JSON integer numeral (optional minus, digits, no leading zero);
fails if a fraction or exponent part follows (modelling restriction). -/
def jsonNum (cs : List Char) : Option (Int × List Char) :=
  let core (ds rest : List Char) (sign : Int) : Option (Int × List Char) :=
    if ds = [] then none
    else if 1 < ds.length ∧ ds.headI = '0' then none
    else
      match rest with
      | r :: _ =>
        if r = '.' ∨ r = 'e' ∨ r = 'E' then none
        else some (sign * (digitsToNat ds : Int), rest)
      | [] => some (sign * (digitsToNat ds : Int), rest)
  match cs with
  | '-' :: cs' =>
    let ds := cs'.takeWhile Char.isDigit
    core ds (cs'.drop ds.length) (-1)
  | _ =>
    let ds := cs.takeWhile Char.isDigit
    core ds (cs.drop ds.length) 1

mutual

/-- Fuel-indexed recursive-descent parser for one JSON value; returns the
value and the unconsumed rest. -/
def jsonValue : Nat → List Char → Option (Json × List Char)
  | 0, _ => none
  | Nat.succ fuel, cs =>
    match cs.dropWhile jsWs with
    | 'n' :: 'u' :: 'l' :: 'l' :: rest => some (Json.null, rest)
    | 't' :: 'r' :: 'u' :: 'e' :: rest => some (Json.bool true, rest)
    | 'f' :: 'a' :: 'l' :: 's' :: 'e' :: rest => some (Json.bool false, rest)
    | '"' :: rest => (jsonString rest).map (fun p => (Json.str p.1, p.2))
    | '[' :: rest =>
      match rest.dropWhile jsWs with
      | ']' :: rest' => some (Json.arr [], rest')
      | _ => (jsonElems fuel rest).map (fun p => (Json.arr p.1, p.2))
    | '{' :: rest =>
      match rest.dropWhile jsWs with
      | '}' :: rest' => some (Json.obj [], rest')
      | _ => (jsonMembers fuel rest).map (fun p => (Json.obj p.1, p.2))
    | cs' => (jsonNum cs').map (fun p => (Json.num p.1, p.2))

/-- Comma-separated JSON array elements up to the closing bracket. -/
def jsonElems : Nat → List Char → Option (List Json × List Char)
  | 0, _ => none
  | Nat.succ fuel, cs =>
    match jsonValue fuel cs with
    | none => none
    | some (v, rest) =>
      match rest.dropWhile jsWs with
      | ',' :: rest' => (jsonElems fuel rest').map (fun p => (v :: p.1, p.2))
      | ']' :: rest' => some ([v], rest')
      | _ => none

/-- Comma-separated JSON object members up to the closing brace. -/
def jsonMembers : Nat → List Char → Option (List (List Char × Json) × List Char)
  | 0, _ => none
  | Nat.succ fuel, cs =>
    match cs.dropWhile jsWs with
    | '"' :: rest =>
      match jsonString rest with
      | none => none
      | some (k, r1) =>
        match r1.dropWhile jsWs with
        | ':' :: r2 =>
          match jsonValue fuel r2 with
          | none => none
          | some (v, r3) =>
            match r3.dropWhile jsWs with
            | ',' :: r4 => (jsonMembers fuel r4).map (fun p => ((k, v) :: p.1, p.2))
            | '}' :: r4 => some ([(k, v)], r4)
            | _ => none
        | _ => none
    | _ => none

end

/-- `JSON.parse`: parse a complete JSON document (whole input consumed up
to trailing whitespace); `none` models a thrown `SyntaxError`. -/
def jsonParse (cs : List Char) : Option Json :=
  match jsonValue (2 * cs.length + 2) cs with
  | some (v, rest) => if rest.dropWhile jsWs = [] then some v else none
  | none => none

/-! ## The regex matchers of `parseFeedback`

`parseFeedback` (reviewPipeline.ts) uses, in order:

* `response.match(/\[\s*\{[\s\S]*?\}\s*\]/)` — first (leftmost) substring
  that looks like a JSON array of objects, with a lazy body;
* three global line patterns
  `/(?:line|Line)\s*(\d+):\s*(.+)/g`, `/(\d+)\.\s*(.+)/g`,
  `/•\s*(?:Line\s*)?(\d+)?:?\s*(.+)/g`,
  tried in order, each via repeated `exec`.

Each is translated below as a leftmost-match scanner with the same
backtracking behaviour.
-/

/-- The lazy tail `[\s\S]*?\}\s*\]` of the JSON-array regex: scan for the
earliest `}` that is followed by optional whitespace and `]`; everything
before it is consumed lazily.  Returns the consumed characters (body up to
and including the final `]`) and the rest of the input. -/
def lazyArrCloser : List Char → Option (List Char × List Char)
  | [] => none
  | c :: cs =>
    if c = '}' then
      let w := cs.takeWhile jsWs
      match cs.drop w.length with
      | ']' :: rest => some ('}' :: (w ++ [']']), rest)
      | _ => (lazyArrCloser cs).map (fun p => (c :: p.1, p.2))
    else (lazyArrCloser cs).map (fun p => (c :: p.1, p.2))

/-- Match `\[\s*\{[\s\S]*?\}\s*\]` anchored at the head of the input,
returning the matched substring. -/
def arrMatchAt : List Char → Option (List Char)
  | '[' :: cs =>
    let w := cs.takeWhile jsWs
    match cs.drop w.length with
    | '{' :: rest => (lazyArrCloser rest).map (fun p => '[' :: (w ++ ('{' :: p.1)))
    | _ => none
  | _ => none

/-- `response.match(/\[\s*\{[\s\S]*?\}\s*\]/)`: leftmost match. -/
def jsonArrayMatch : List Char → Option (List Char)
  | [] => none
  | c :: cs =>
    match arrMatchAt (c :: cs) with
    | some m => some m
    | none => jsonArrayMatch cs

/-- The regex tail `\s*(.+)`: greedy whitespace, then a non-empty run of
characters other than a line terminator, with the regex-engine backtracking
into the whitespace when the greedy run hits the end of input.  Returns the
capture of `(.+)` and the rest of the input. -/
def wsDotPlus (cs : List Char) : Option (List Char × List Char) :=
  let w := cs.takeWhile jsWs
  match cs.drop w.length with
  | [] =>
    let tail := (w.reverse.takeWhile (fun c => ¬ isLineTerm c)).reverse
    if tail.isEmpty then none else some (tail, [])
  | r :: rs =>
    let g := (r :: rs).takeWhile (fun c => ¬ isLineTerm c)
    some (g, (r :: rs).drop g.length)

/-- Tail of pattern 1 after the literal `line`/`Line`:
`\s*(\d+):\s*(.+)`. -/
def p1Tail (rest : List Char) : Option ((Option Nat × List Char) × List Char) :=
  let r1 := rest.dropWhile jsWs
  let ds := r1.takeWhile Char.isDigit
  if ds.isEmpty then none
  else
    match r1.drop ds.length with
    | ':' :: r2 => (wsDotPlus r2).map (fun p => ((some (digitsToNat ds), p.1), p.2))
    | _ => none

/-- Pattern 1, `(?:line|Line)\s*(\d+):\s*(.+)`, anchored at the head.
Returns the two captures and the rest of the input after the match. -/
def p1At : List Char → Option ((Option Nat × List Char) × List Char)
  | 'l' :: 'i' :: 'n' :: 'e' :: rest => p1Tail rest
  | 'L' :: 'i' :: 'n' :: 'e' :: rest => p1Tail rest
  | _ => none

/-- Pattern 2, `(\d+)\.\s*(.+)`, anchored at the head. -/
def p2At (cs : List Char) : Option ((Option Nat × List Char) × List Char) :=
  let ds := cs.takeWhile Char.isDigit
  if ds.isEmpty then none
  else
    match cs.drop ds.length with
    | '.' :: r2 => (wsDotPlus r2).map (fun p => ((some (digitsToNat ds), p.1), p.2))
    | _ => none

/-- The optional `:?` followed by `\s*(.+)`: the engine first tries to
consume a colon, then retries without it. -/
def p3Colon (r : List Char) : Option (List Char × List Char) :=
  match r with
  | ':' :: r2 =>
    match wsDotPlus r2 with
    | some p => some p
    | none => wsDotPlus r
  | _ => wsDotPlus r

/-- The optional capture `(\d+)?` of pattern 3, backtracking from the
longest digit run down to one digit (`k` is the number of digits still to
try), before giving the group up entirely. -/
def p3Digits (r : List Char) : Nat → Option ((Option Nat × List Char) × List Char)
  | 0 => none
  | Nat.succ k =>
    match p3Colon (r.drop (k + 1)) with
    | some p => some ((some (digitsToNat (r.take (k + 1))), p.1), p.2)
    | none => p3Digits r k

/-- Tail of pattern 3 after the bullet and optional `Line`:
`(\d+)?:?\s*(.+)`. -/
def p3Tail (r : List Char) : Option ((Option Nat × List Char) × List Char) :=
  match p3Digits r (r.takeWhile Char.isDigit).length with
  | some p => some p
  | none => (p3Colon r).map (fun p => ((none, p.1), p.2))

/-- Pattern 3, `•\s*(?:Line\s*)?(\d+)?:?\s*(.+)`, anchored at the head;
the optional `Line\s*` group is preferred present. -/
def p3At : List Char → Option ((Option Nat × List Char) × List Char)
  | '•' :: rest =>
    let r1 := rest.dropWhile jsWs
    match r1 with
    | 'L' :: 'i' :: 'n' :: 'e' :: r2 =>
      match p3Tail (r2.dropWhile jsWs) with
      | some p => some p
      | none => p3Tail r1
    | _ => p3Tail r1
  | _ => none

/-- Repeated `exec` of a global regex: find the leftmost match, resume
after its end, collect every match's captures in document order.  The fuel
is the input length; every match of the three patterns above consumes at
least one character. -/
def execAllAux (pat : List Char → Option ((Option Nat × List Char) × List Char)) :
    Nat → List Char → List (Option Nat × List Char)
  | 0, _ => []
  | Nat.succ _, [] => []
  | Nat.succ fuel, c :: cs =>
    match pat (c :: cs) with
    | some (g, rest) => g :: execAllAux pat fuel rest
    | none => execAllAux pat fuel cs

/-- All matches of a global pattern over the input, in document order. -/
def execAll (pat : List Char → Option ((Option Nat × List Char) × List Char))
    (cs : List Char) : List (Option Nat × List Char) :=
  execAllAux pat cs.length cs

/-! ## The Feedback Parser -/

/-- `ParsedFeedback` (reviewPipeline.ts): one structured feedback item.
`type` and the other texts are kept as raw character lists, matching the
runtime values (the TypeScript union type is not enforced at runtime). -/
structure ParsedFeedback where
  line : Int
  type : List Char
  text : List Char
  comment : List Char
  suggestion : Option (List Char)
deriving DecidableEq, Repr

/-- `inferCommentType` (reviewPipeline.ts): keyword-match the content,
checked in source order. -/
def inferCommentType (content : List Char) : List Char :=
  let lower := content.map jsToLower
  if containsSub "error".toList lower || containsSub "incorrect".toList lower ||
      containsSub "wrong".toList lower then "error".toList
  else if containsSub "warning".toList lower || containsSub "caution".toList lower ||
      containsSub "careful".toList lower then "warning".toList
  else if containsSub "good".toList lower || containsSub "great".toList lower ||
      containsSub "excellent".toList lower || containsSub "well".toList lower then "praise".toList
  else if containsSub "?".toList lower || containsSub "unclear".toList lower ||
      containsSub "clarify".toList lower then "question".toList
  else "suggestion".toList

/-- `inferSeverity` (reviewPipeline.ts): severity from type, then from
urgency keywords. -/
def inferSeverity (type content : List Char) : List Char :=
  if type = "error".toList then "high".toList
  else if type = "warning".toList then "medium".toList
  else if type = "praise".toList then "low".toList
  else
    let lower := content.map jsToLower
    if containsSub "critical".toList lower || containsSub "must".toList lower ||
        containsSub "immediately".toList lower then "high".toList
    else if containsSub "should".toList lower || containsSub "consider".toList lower ||
        containsSub "might".toList lower then "medium".toList
    else "low".toList

/-- One element of the parsed JSON array mapped to a `ParsedFeedback`, as
in the source's `parsed.map((item) => ({line: item.line || 1, type:
item.type || 'suggestion', text: item.text || '', comment: item.comment ||
'', suggestion: item.suggestion}))`.  The `||` defaults replace any falsy
field value (absent, `null`, `false`, `0`, `""`).  A truthy field of the
wrong runtime type (say a string `line`) would be copied as-is by
JavaScript; such ill-typed values are outside this model, which applies
the default there, and the theorems below restrict to well-typed items. -/
def jsonItemToFeedback (item : Json) : ParsedFeedback :=
  { line :=
      match jsGetField item "line".toList with
      | some (Json.num n) => if n = 0 then 1 else n
      | _ => 1
    type :=
      match jsGetField item "type".toList with
      | some (Json.str t) => if t = [] then "suggestion".toList else t
      | _ => "suggestion".toList
    text :=
      match jsGetField item "text".toList with
      | some (Json.str t) => t
      | _ => []
    comment :=
      match jsGetField item "comment".toList with
      | some (Json.str t) => t
      | _ => []
    suggestion :=
      match jsGetField item "suggestion".toList with
      | some (Json.str t) => some t
      | _ => none }

/-- Strategy 1 of `parseFeedback`: find the first JSON-array-shaped
substring, `JSON.parse` it, and map the elements.  `none` models every way
the source falls through to the line patterns: no regex match, a parse
exception, a parsed non-array, or a `null` element (reading `.line` on
`null` throws, and the `try` block catches it). -/
def tryJsonStrategy (response : List Char) : Option (List ParsedFeedback) :=
  match jsonArrayMatch response with
  | none => none
  | some sub =>
    match jsonParse sub with
    | some (Json.arr items) =>
      if items.any jsonIsNull then none
      else some (items.map jsonItemToFeedback)
    | _ => none

/-- The per-match body of the line-pattern loop: keep a match when its
trimmed content is longer than 10 characters, producing a Finding with the
parsed line number (`parseInt(match[1], 10)`, defaulting to 1 when the
group is absent) and an inferred type. -/
def keptOf (ms : List (Option Nat × List Char)) : List ParsedFeedback :=
  ms.filterMap (fun m =>
    let lineNum : Nat :=
      match m.1 with
      | some n => n
      | none => 1
    let content := jsTrim m.2
    if 10 < content.length then
      some { line := (lineNum : Int), type := inferCommentType content,
             text := [], comment := content, suggestion := none }
    else none)

/-- Strategy 2 of `parseFeedback`: the three line patterns tried in order;
the first whose matches yield at least one kept Finding wins (`if
(feedback.length > 0) break`). -/
def tryPatterns (response : List Char) : List ParsedFeedback :=
  let k1 := keptOf (execAll p1At response)
  if ¬ k1.isEmpty then k1
  else
    let k2 := keptOf (execAll p2At response)
    if ¬ k2.isEmpty then k2
    else keptOf (execAll p3At response)

/-- `parseFeedback` (reviewPipeline.ts): the ordered fallback cascade —
JSON array extraction, then line patterns, then a single general comment
when the trimmed response exceeds 20 characters, else nothing. -/
def parseFeedback (response : List Char) : List ParsedFeedback :=
  match tryJsonStrategy response with
  | some fs => fs
  | none =>
    let fs := tryPatterns response
    if ¬ fs.isEmpty then fs
    else if 20 < (jsTrim response).length then
      [{ line := 1, type := "suggestion".toList, text := [],
         comment := (jsTrim response).take 500, suggestion := none }]
    else []

/-- `getTextAtLine` (reviewPipeline.ts): the literal document line at a
1-based line number, the index clamped into the valid range
(`Math.max(0, Math.min(line - 1, lines.length - 1))`). -/
def getTextAtLine (content : List Char) (line : Int) : List Char :=
  let lines := splitNl content
  let index := max 0 (min (line - 1) ((lines.length : Int) - 1))
  lines.getD index.toNat []

/-! ## Data model: reviewers, comments, council store -/

/-- `Reviewer` (types/council): a configured review role.  Only the fields
the pipeline reads are modelled; the system-prompt template and display
description play no role in the verified behaviour. -/
structure Reviewer where
  id : String
  name : String
  icon : String
  color : String
  model : String
  isEditor : Bool
  enabled : Bool
deriving DecidableEq, Repr

/-- `ReviewComment` (types/council): one Finding.  `type`, `severity` and
`status` are kept as raw strings, as at runtime; `confidence` is the exact
rational of the stored literal; the creation timestamp and the
store-assigned `id` are omitted (never read by the pipeline). -/
structure ReviewComment where
  reviewerId : String
  reviewerName : String
  reviewerIcon : String
  reviewerColor : String
  startLine : Int
  endLine : Int
  originalText : List Char
  type : List Char
  severity : List Char
  comment : List Char
  suggestedFix : Option (List Char)
  confidence : ℚ
  status : List Char
deriving DecidableEq

/-- One `prioritizedChanges` entry of the Editor synthesis, built by
`runEditorSynthesis` from the parsed response.  JavaScript copies the raw
field values with `||` defaults, so the fields stay `Json`. -/
structure PrioritizedChange where
  priority : Json
  description : Json
  relatedComments : Json

/-- `ReviewDocument.editorSynthesis` (types/council), as built by
`runEditorSynthesis`; the timestamp is omitted. -/
structure EditorSynthesis where
  reviewerId : String
  model : String
  overallAssessment : Json
  prioritizedChanges : List PrioritizedChange

/-- One `councilFeedback` entry of the ReviewDocument. -/
structure CouncilFeedbackEntry where
  reviewerId : String
  comments : List ReviewComment
  summary : String
  model : String

/-- Modelled from the spec: the council store state the pipeline reads and
writes (`useCouncilStore` is not among the provided sources).  It holds
the current review phase, the ReviewDocument under construction
(`councilFeedback`, `editorSynthesis`, with `reviewDocInit` recording that
`initReviewDocument` ran), the session's accumulated comments, the
per-reviewer progress map, and the session's optional closing summary. -/
structure CouncilState where
  reviewPhase : String
  reviewDocInit : Bool
  councilFeedback : List CouncilFeedbackEntry
  editorSynthesis : Option EditorSynthesis
  comments : List ReviewComment
  progress : List (String × String)
  sessionSummary : Option String

/-- Modelled from the spec: `setReviewPhase` stores the new phase. -/
def setReviewPhase (phase : String) (s : CouncilState) : CouncilState :=
  { s with reviewPhase := phase }

/-- Modelled from the spec: `initReviewDocument` starts a fresh
ReviewDocument for the run (empty `councilFeedback`, no synthesis). -/
def initReviewDocument (s : CouncilState) : CouncilState :=
  { s with reviewDocInit := true, councilFeedback := [], editorSynthesis := none }

/-- Modelled from the spec: `addCouncilFeedback` appends one per-reviewer
entry (reviewer id, its Findings, a one-line summary, the model used). -/
def addCouncilFeedback (reviewerId : String) (comments : List ReviewComment)
    (summary : String) (model : String) (s : CouncilState) : CouncilState :=
  { s with councilFeedback :=
      s.councilFeedback ++ [⟨reviewerId, comments, summary, model⟩] }

/-- Modelled from the spec: `setEditorSynthesis` stores the synthesis. -/
def setEditorSynthesis (syn : EditorSynthesis) (s : CouncilState) : CouncilState :=
  { s with editorSynthesis := some syn }

/-- Modelled from the spec: `addComment` appends a Finding to the session. -/
def addComment (c : ReviewComment) (s : CouncilState) : CouncilState :=
  { s with comments := s.comments ++ [c] }

/-- Modelled from the spec: `setReviewProgress` records a reviewer's
progress state (`in_progress` / `complete` / `error`). -/
def setReviewProgress (reviewerId status : String) (s : CouncilState) : CouncilState :=
  { s with progress := (s.progress.filter (fun p => p.1 ≠ reviewerId)) ++ [(reviewerId, status)] }

/-- Modelled from the spec: `getEditorReviewer` returns the distinguished
editor role when one is configured and enabled. -/
def getEditorReviewer (reviewers : List Reviewer) : Option Reviewer :=
  reviewers.find? (fun r => r.isEditor && r.enabled)

/-- Look up a reviewer's recorded progress state. -/
def progressOf (s : CouncilState) (reviewerId : String) : Option String :=
  (s.progress.find? (fun p => p.1 = reviewerId)).map (fun p => p.2)

/-! ## Reviewer Task Runner -/

/-- `runReviewer`'s conversion of one parsed feedback item into a
`ReviewComment` (reviewPipeline.ts, the `feedback.map` body): a
single-line range at the parsed line, the literal document line as
`originalText` when the parser supplied no quoted text, inferred severity,
the fixed confidence `0.8`, and `pending` disposition. -/
def mkReviewComment (reviewer : Reviewer) (content : List Char)
    (f : ParsedFeedback) : ReviewComment :=
  { reviewerId := reviewer.id
    reviewerName := reviewer.name
    reviewerIcon := reviewer.icon
    reviewerColor := reviewer.color
    startLine := f.line
    endLine := f.line
    originalText := if f.text.isEmpty then getTextAtLine content f.line else f.text
    type := f.type
    severity := inferSeverity f.type f.comment
    comment := f.comment
    suggestedFix := f.suggestion
    confidence := (4 : ℚ) / 5
    status := "pending".toList }

/-- `runReviewer` (reviewPipeline.ts).  The Ollama generate call is an
oracle: `some text` is a 2xx response body's `response` field (already
defaulted with `|| ''` by the caller of `parseFeedback`), `none` is a
thrown transport error (network failure or non-2xx, which the source turns
into `throw new Error(...)`).  On success the parsed comments are added to
the store and progress is marked `complete`; on a throw the catch block
marks progress `error` and re-throws, modelled by `Except.error`. -/
def runReviewer (reviewer : Reviewer) (content : List Char)
    (resp : Option (List Char)) (s : CouncilState) :
    Except Unit (List ReviewComment) × CouncilState :=
  let s1 := setReviewProgress reviewer.id "in_progress" s
  match resp with
  | none => (Except.error (), setReviewProgress reviewer.id "error" s1)
  | some text =>
    let comments := (parseFeedback text).map (mkReviewComment reviewer content)
    let s2 := comments.foldl (fun st c => addComment c st) s1
    (Except.ok comments, setReviewProgress reviewer.id "complete" s2)

/-- The per-reviewer one-line tally summary built inside
`runFullCouncilReview` (counts by type). -/
def reviewerSummary (reviewer : Reviewer) (comments : List ReviewComment) : String :=
  reviewer.name ++ " found " ++ toString comments.length ++ " item(s): " ++
    toString (comments.filter (fun c => c.type = "error".toList)).length ++ " errors, " ++
    toString (comments.filter (fun c => c.type = "warning".toList)).length ++ " warnings, " ++
    toString (comments.filter (fun c => c.type = "suggestion".toList)).length ++ " suggestions."

/-! ## Editor Synthesis -/

/-- `responseText.match(/\{[\s\S]*\}/)`: with a greedy body, the match runs
from the first opening brace to the last closing brace, provided the
closing brace comes later. -/
def jsonObjectMatch (cs : List Char) : Option (List Char) :=
  match cs.findIdx? (fun c => c = '{'), (cs.reverse.findIdx? (fun c => c = '}')) with
  | some i, some k =>
    let j := cs.length - 1 - k
    if i < j then some ((cs.drop i).take (j - i + 1)) else none
  | _, _ => none

/-- The response-parsing tail of `runEditorSynthesis`: extract the first
JSON-object-shaped substring, `JSON.parse` it inside a `try` (a failure
leaves `synthesis` undefined), then build the synthesis object with `||`
fallbacks: `overallAssessment` falls back to the first 500 characters of
the raw response, `prioritizedChanges` to `[]`.  A parsed
`prioritizedChanges` that is a truthy non-array, or an array with a `null`
element, would make the unprotected `.map` throw — modelled by
`Except.error`. -/
def editorParsed (responseText : List Char) : Option Json :=
  match jsonObjectMatch responseText with
  | some sub => jsonParse sub
  | none => none

/-- The synthesis object built from the (possibly unparseable) editor
response; see `buildSynthesis`'s doc comment context above. -/
def buildSynthesis (editor : Reviewer) (responseText : List Char) :
    Except Unit EditorSynthesis :=
  let parsed : Option Json := editorParsed responseText
  let overall : Json :=
    match parsed.bind (fun j => jsGetField j "overallAssessment".toList) with
    | some v => if jsTruthy v then v else Json.str (responseText.take 500)
    | none => Json.str (responseText.take 500)
  let changes : Except Unit (List PrioritizedChange) :=
    match parsed.bind (fun j => jsGetField j "prioritizedChanges".toList) with
    | some (Json.arr xs) =>
      if xs.any jsonIsNull then Except.error ()
      else Except.ok (xs.map (fun c =>
        { priority :=
            match jsGetField c "priority".toList with
            | some v => if jsTruthy v then v else Json.str "medium".toList
            | none => Json.str "medium".toList
          description :=
            match jsGetField c "description".toList with
            | some v => if jsTruthy v then v else Json.str []
            | none => Json.str []
          relatedComments :=
            match jsGetField c "relatedComments".toList with
            | some v => if jsTruthy v then v else Json.arr []
            | none => Json.arr [] }))
    | some v => if jsTruthy v then Except.error () else Except.ok []
    | none => Except.ok []
  match changes with
  | Except.error _ => Except.error ()
  | Except.ok cs =>
    Except.ok { reviewerId := editor.id, model := editor.model,
                overallAssessment := overall, prioritizedChanges := cs }

/-- `runEditorSynthesis` (reviewPipeline.ts): throws when no review
document was initialised (`throw new Error('No review document found')`)
or when the generate call fails (the oracle is `none`); otherwise parses
the response via `buildSynthesis`. -/
def runEditorSynthesis (editor : Reviewer) (resp : Option (List Char))
    (s : CouncilState) : Except Unit EditorSynthesis :=
  if ¬ s.reviewDocInit then Except.error ()
  else
    match resp with
    | none => Except.error ()
    | some responseText => buildSynthesis editor responseText

/-! ## Review Orchestrator -/

/-- Observable events of one full council run: residency requests (never
issued by the source orchestrator, but part of the observation alphabet so
their absence is a statement), per-reviewer task start/settle, phase
changes, and the synthesis call. -/
inductive Event where
  | ensureLoaded (model : String)
  | reviewerStart (id : String)
  | reviewerDone (id : String) (ok : Bool)
  | phase (p : String)
  | synthesisStart
deriving DecidableEq, Repr

/-- The body of the council loop of `runFullCouncilReview` for one
reviewer: run the task, on success append the Findings plus the tally
summary to `councilFeedback`, on a caught failure just continue. -/
def councilStep (content : List Char) (responses : String → Option (List Char))
    (acc : CouncilState × List Event) (reviewer : Reviewer) :
    CouncilState × List Event :=
  let evs := acc.2 ++ [Event.reviewerStart reviewer.id]
  match runReviewer reviewer content (responses reviewer.id) acc.1 with
  | (Except.ok comments, st) =>
    (addCouncilFeedback reviewer.id comments (reviewerSummary reviewer comments)
        reviewer.model st,
      evs ++ [Event.reviewerDone reviewer.id true])
  | (Except.error _, st) =>
    (st, evs ++ [Event.reviewerDone reviewer.id false])

/-- Phase 1 of `runFullCouncilReview`: the sequential council loop. -/
def councilLoop (content : List Char) (responses : String → Option (List Char))
    (reviewers : List Reviewer) (s : CouncilState) : CouncilState × List Event :=
  reviewers.foldl (councilStep content responses) (s, [])

/-- `runFullCouncilReview` (reviewPipeline.ts): filter the enabled ids to
the non-editor council, initialise the ReviewDocument, run the council
sequentially in that order, then — only when an editor reviewer is
configured and enabled — enter `editor_synthesizing` and attempt the
synthesis (a failure is caught and leaves `editorSynthesis` unset), and
finally enter `user_deciding`.  Returns the final store state and the
event trace. -/
def runFullCouncilReview (reviewers : List Reviewer) (reviewerIds : List String)
    (content : List Char) (responses : String → Option (List Char))
    (editorResponse : Option (List Char)) (s0 : CouncilState) :
    CouncilState × List Event :=
  let councilReviewers := reviewers.filter (fun r => reviewerIds.contains r.id && !r.isEditor)
  let editor := getEditorReviewer reviewers
  if councilReviewers.isEmpty then (s0, [])
  else
    let s2 := setReviewPhase "council_reviewing" (initReviewDocument s0)
    let lp := councilLoop content responses councilReviewers s2
    let evs := Event.phase "council_reviewing" :: lp.2
    match editor with
    | some ed =>
      let s4 := setReviewPhase "editor_synthesizing" lp.1
      let s5 :=
        match runEditorSynthesis ed editorResponse s4 with
        | Except.ok syn => setEditorSynthesis syn s4
        | Except.error _ => s4
      (setReviewPhase "user_deciding" s5,
        evs ++ [Event.phase "editor_synthesizing", Event.synthesisStart,
                Event.phase "user_deciding"])
    | none =>
      (setReviewPhase "user_deciding" lp.1, evs ++ [Event.phase "user_deciding"])

/-! ## Model Residency Controller (`modelManager.ts`)

The Ollama gateway is modelled as an environment with the resident model
set (what `GET /api/ps` reports) and a flag saying whether a
load-triggering generate call for the target succeeds.  Unload requests
(`keep_alive: 0`) remove the named model; a successful load leaves the
target as the sole resident.  Requests are recorded as events: `ps` is a
residency listing, `unloadReq` an eviction request, `loadReq` a
load-confirmation generate request.
-/

/-- The gateway environment. -/
structure Gateway where
  resident : List String
  loadOk : Bool
deriving DecidableEq, Repr

/-- Requests issued against the gateway. -/
inductive MMEvent where
  | ps
  | unloadReq (m : String)
  | loadReq (m : String)
deriving DecidableEq, Repr

/-- The residency test used throughout `modelManager.ts`:
`m.name === modelName || m.name.startsWith(modelName + ':')`. -/
def residentMatches (name target : String) : Bool :=
  name = target || (target ++ ":").isPrefixOf name

/-- `getLoadedModels`: one `/api/ps` query. -/
def getLoadedModels (g : Gateway) : List String × List MMEvent :=
  (g.resident, [MMEvent.ps])

/-- `isModelLoaded`: list residents and test the name match. -/
def isModelLoaded (g : Gateway) (m : String) : Bool × List MMEvent :=
  (g.resident.any (fun n => residentMatches n m), [MMEvent.ps])

/-- `unloadModel` (modelManager.ts): one `keep_alive: 0` generate request,
a settle delay, then one `/api/ps` re-query to verify (the result is only
warned about); returns `true` under normal gateway operation. -/
def unloadModel (g : Gateway) (m : String) : Bool × Gateway × List MMEvent :=
  let g1 : Gateway := { g with resident := g.resident.filter (fun n => ¬ residentMatches n m) }
  (true, g1, [MMEvent.unloadReq m, MMEvent.ps])

/-- `loadModel` (modelManager.ts): skip with success when the model is
already resident; otherwise one minimal single-token generate request
against the model — on success the model becomes resident and the loaded
list is re-queried, on failure the function returns `false`. -/
def loadModel (g : Gateway) (m : String) : Bool × Gateway × List MMEvent :=
  let chk := isModelLoaded g m
  if chk.1 then (true, g, chk.2)
  else if g.loadOk then
    ({ g with resident := [m] }, chk.2 ++ [MMEvent.loadReq m, MMEvent.ps]) |>
      (fun p => (true, p.1, p.2))
  else (false, g, chk.2 ++ [MMEvent.loadReq m])

/-- `ensureModelLoaded` (modelManager.ts): list residents; if the target
already matches one, succeed immediately; otherwise unload every resident
model (then wait for VRAM to settle) and load the target, returning the
load's result. -/
def ensureModelLoaded (g : Gateway) (m : String) : Bool × Gateway × List MMEvent :=
  let q := getLoadedModels g
  if q.1.any (fun n => residentMatches n m) then (true, g, q.2)
  else
    let ev := q.1.foldl
      (fun (acc : Gateway × List MMEvent) name =>
        let r := unloadModel acc.1 name
        (r.2.1, acc.2 ++ r.2.2))
      (g, [])
    let r := loadModel ev.1 m
    (r.1, r.2.1, q.2 ++ ev.2 ++ r.2.2)

/-! ## Trace observations and concrete instances used in the theorems -/

/-- The reviewer ids of the `reviewerStart` events of a trace: the
execution order of the council. -/
def startsOf (evs : List Event) : List String :=
  evs.filterMap (fun e =>
    match e with
    | Event.reviewerStart id => some id
    | _ => none)

/-- The phase changes of a trace, in order. -/
def phasesOf (evs : List Event) : List String :=
  evs.filterMap (fun e =>
    match e with
    | Event.phase p => some p
    | _ => none)

/-- Residency requests (`ensureLoaded`) recorded in a trace. -/
def isEnsureEv : Event → Bool
  | Event.ensureLoaded _ => true
  | _ => false

/-- Reviewer task events (start / settle) of a trace. -/
def isReviewerEv : Event → Bool
  | Event.reviewerStart _ => true
  | Event.reviewerDone _ _ => true
  | _ => false

/-- The task events the council loop produces: for each reviewer in order,
a start and a settle carrying whether the task succeeded (the generate
oracle answered). -/
def reviewerEvents (responses : String → Option (List Char)) (rs : List Reviewer) :
    List Event :=
  rs.flatMap (fun r =>
    [Event.reviewerStart r.id, Event.reviewerDone r.id (responses r.id).isSome])

/-- The comments one successful reviewer task contributes. -/
def taskComments (content : List Char) (r : Reviewer) (t : List Char) :
    List ReviewComment :=
  (parseFeedback t).map (mkReviewComment r content)

/-- The `councilFeedback` entries the council loop appends: one per
successful reviewer, in execution order; a failed reviewer contributes
none. -/
def councilEntries (content : List Char) (responses : String → Option (List Char))
    (rs : List Reviewer) : List CouncilFeedbackEntry :=
  rs.flatMap (fun r =>
    match responses r.id with
    | none => []
    | some t => [⟨r.id, taskComments content r t,
                  reviewerSummary r (taskComments content r t), r.model⟩])

/-- Eviction requests of a residency trace. -/
def isUnloadEv : MMEvent → Bool
  | MMEvent.unloadReq _ => true
  | _ => false

/-- Load-confirmation requests of a residency trace. -/
def isLoadEv : MMEvent → Bool
  | MMEvent.loadReq _ => true
  | _ => false

/-- An idle council store before any run. -/
def idleState : CouncilState := ⟨"idle", false, [], none, [], [], none⟩

/-- Three enabled council reviewers whose models are `A`, `B`, `A` in
configuration order. -/
def rvA1 : Reviewer := ⟨"a1", "Alpha", "i1", "blue", "modelA", false, true⟩

def rvB : Reviewer := ⟨"b", "Beta", "i2", "green", "modelB", false, true⟩

def rvA2 : Reviewer := ⟨"a2", "Gamma", "i3", "red", "modelA", false, true⟩

/-- An enabled editor reviewer. -/
def rvEd : Reviewer := ⟨"ed", "Editor", "i4", "pink", "modelE", true, true⟩

/-- A response every reviewer could return: one well-shaped line comment. -/
def okResponse : List Char :=
  "Line 2: this line needs attention badly".toList

/-- Oracle where every reviewer answers `okResponse`. -/
def allOk : String → Option (List Char) := fun _ => some okResponse

/-- Oracle where reviewer `b` suffers a transport error and the others
answer `okResponse`. -/
def bFails : String → Option (List Char) := fun id =>
  if id = "b" then none else some okResponse

/-- The two-line document of the spec's end-to-end example. -/
def docTwoLines : List Char := "Line one.\nLine two has an error.".toList

/-- A reviewer response consisting of a well-formed JSON array whose
single element carries the explicit field `line: 0` (a present but falsy
line number). -/
def c3Response : List Char :=
  "[\x7b\"line\": 0, \"comment\": \"please fix this paragraph\"\x7d]".toList

/-- The element list `JSON.parse` yields for `c3Response`. -/
def c3Items : List Json :=
  [Json.obj [("line".toList, Json.num 0),
             ("comment".toList, Json.str "please fix this paragraph".toList)]]

/-- A reviewer response consisting of a well-formed JSON array with a
non-zero line and explicit type. -/
def c3wResponse : List Char :=
  "[\x7b\"line\": 2, \"type\": \"error\", \"comment\": \"Unverified claim\"\x7d]".toList

/-- The element list `JSON.parse` yields for `c3wResponse`. -/
def c3wItems : List Json :=
  [Json.obj [("line".toList, Json.num 2),
             ("type".toList, Json.str "error".toList),
             ("comment".toList, Json.str "Unverified claim".toList)]]

/-- A response whose first line matches pattern 1 with a comment of
exactly 10 characters and whose second line matches pattern 2 with a long
comment. -/
def c4Response : List Char :=
  "Line 2: shortstuff\n1. this content is long enough to keep".toList

/-- A response with a single well-shaped `Line N:` comment. -/
def c4wResponse : List Char :=
  "Line 3: this sentence has a problem with wrong facts".toList

/-- A non-empty response that no strategy matches and whose trimmed length
is 11, at most 20. -/
def c5Response : List Char := "short reply".toList

/-- A response no strategy matches whose trimmed length exceeds 20. -/
def c5wResponse : List Char := "this response has no structure at all".toList

/-- An editor response from which no JSON object can be parsed. -/
def c9Response : List Char :=
  "I could not produce a structured answer this time.".toList

/-- A parsed feedback item with no quoted text and the out-of-range line
number 0. -/
def c10Item : ParsedFeedback :=
  ⟨0, "suggestion".toList, [], "the opening could be stronger here".toList, none⟩

/-! ## Helper lemmas -/

theorem splitNl_length_pos (cs : List Char) : 0 < (splitNl cs).length := by
  induction cs with
  | nil => simp [splitNl]
  | cons c cs ih =>
    by_cases h : c = '\n'
    · simp [splitNl, h]
    · simp only [splitNl, if_neg h]
      cases hg : splitNl cs with
      | nil => simp
      | cons g gs => simp

theorem progress_find_set (l : List (String × String)) (id st : String) :
    ((l.filter (fun p => p.1 ≠ id)) ++ [(id, st)]).find? (fun p => p.1 = id) =
      some (id, st) := by
  induction l with
  | nil => simp [List.find?]
  | cons a l ih =>
    by_cases h : a.1 = id
    · simp [List.filter_cons, h, ih]
    · simp [List.filter_cons, h, List.find?_cons, ih]

theorem progressOf_set_same (s : CouncilState) (id st : String) :
    progressOf (setReviewProgress id st s) id = some st := by
  simp [progressOf, setReviewProgress, progress_find_set]

theorem foldl_addComment_councilFeedback (l : List ReviewComment) (s : CouncilState) :
    (l.foldl (fun st c => addComment c st) s).councilFeedback = s.councilFeedback := by
  induction l generalizing s with
  | nil => rfl
  | cons c l ih => simpa [addComment] using ih (addComment c s)

theorem foldl_addComment_sessionSummary (l : List ReviewComment) (s : CouncilState) :
    (l.foldl (fun st c => addComment c st) s).sessionSummary = s.sessionSummary := by
  induction l generalizing s with
  | nil => rfl
  | cons c l ih => simpa [addComment] using ih (addComment c s)

theorem runReviewer_councilFeedback (r : Reviewer) (content : List Char)
    (resp : Option (List Char)) (s : CouncilState) :
    ((runReviewer r content resp s).2).councilFeedback = s.councilFeedback := by
  cases resp with
  | none => rfl
  | some t =>
    simp [runReviewer, setReviewProgress, foldl_addComment_councilFeedback]

theorem runReviewer_sessionSummary (r : Reviewer) (content : List Char)
    (resp : Option (List Char)) (s : CouncilState) :
    ((runReviewer r content resp s).2).sessionSummary = s.sessionSummary := by
  cases resp with
  | none => rfl
  | some t =>
    simp [runReviewer, setReviewProgress, foldl_addComment_sessionSummary]

theorem councilLoop_trace (content : List Char) (responses : String → Option (List Char))
    (rs : List Reviewer) (s : CouncilState) (evs : List Event) :
    (rs.foldl (councilStep content responses) (s, evs)).2 =
      evs ++ reviewerEvents responses rs := by
  induction rs generalizing s evs with
  | nil => simp [reviewerEvents]
  | cons r rs ih =>
    cases hr : responses r.id with
    | none =>
      simp only [List.foldl_cons, councilStep, hr, runReviewer]
      rw [ih]
      simp [reviewerEvents, hr]
    | some t =>
      simp only [List.foldl_cons, councilStep, hr, runReviewer]
      rw [ih]
      simp [reviewerEvents, hr]

theorem councilLoop_councilFeedback (content : List Char)
    (responses : String → Option (List Char)) (rs : List Reviewer)
    (s : CouncilState) (evs : List Event) :
    (rs.foldl (councilStep content responses) (s, evs)).1.councilFeedback =
      s.councilFeedback ++ councilEntries content responses rs := by
  induction rs generalizing s evs with
  | nil => simp [councilEntries]
  | cons r rs ih =>
    cases hr : responses r.id with
    | none =>
      simp only [List.foldl_cons, councilStep, hr, runReviewer]
      rw [ih]
      simp [councilEntries, hr, setReviewProgress]
    | some t =>
      simp only [List.foldl_cons, councilStep, hr, runReviewer]
      rw [ih]
      simp [councilEntries, hr, addCouncilFeedback, setReviewProgress, taskComments,
        foldl_addComment_councilFeedback]

theorem councilLoop_sessionSummary (content : List Char)
    (responses : String → Option (List Char)) (rs : List Reviewer)
    (s : CouncilState) (evs : List Event) :
    (rs.foldl (councilStep content responses) (s, evs)).1.sessionSummary =
      s.sessionSummary := by
  induction rs generalizing s evs with
  | nil => rfl
  | cons r rs ih =>
    cases hr : responses r.id with
    | none =>
      simp only [List.foldl_cons, councilStep, hr, runReviewer]
      rw [ih]
      simp [setReviewProgress]
    | some t =>
      simp only [List.foldl_cons, councilStep, hr, runReviewer]
      rw [ih]
      simp [addCouncilFeedback, setReviewProgress, foldl_addComment_sessionSummary]

theorem councilLoop_trace2 (content : List Char)
    (responses : String → Option (List Char)) (rs : List Reviewer) (s : CouncilState) :
    (councilLoop content responses rs s).2 = reviewerEvents responses rs := by
  simpa [councilLoop] using councilLoop_trace content responses rs s []

theorem councilLoop_councilFeedback2 (content : List Char)
    (responses : String → Option (List Char)) (rs : List Reviewer) (s : CouncilState) :
    (councilLoop content responses rs s).1.councilFeedback =
      s.councilFeedback ++ councilEntries content responses rs := by
  simpa [councilLoop] using councilLoop_councilFeedback content responses rs s []

theorem councilLoop_sessionSummary2 (content : List Char)
    (responses : String → Option (List Char)) (rs : List Reviewer) (s : CouncilState) :
    (councilLoop content responses rs s).1.sessionSummary = s.sessionSummary := by
  simpa [councilLoop] using councilLoop_sessionSummary content responses rs s []

theorem reviewerEvents_filter_ensure (responses : String → Option (List Char))
    (rs : List Reviewer) : (reviewerEvents responses rs).filter isEnsureEv = [] := by
  induction rs with
  | nil => rfl
  | cons r rs ih => simp [reviewerEvents, isEnsureEv, List.flatMap_cons] at ih ⊢; exact ih

theorem startsOf_reviewerEvents (responses : String → Option (List Char))
    (rs : List Reviewer) :
    startsOf (reviewerEvents responses rs) = rs.map (fun r => r.id) := by
  induction rs with
  | nil => rfl
  | cons r rs ih => simp [reviewerEvents, startsOf, List.flatMap_cons] at ih ⊢; exact ih

theorem phasesOf_reviewerEvents (responses : String → Option (List Char))
    (rs : List Reviewer) : phasesOf (reviewerEvents responses rs) = [] := by
  induction rs with
  | nil => rfl
  | cons r rs ih => simp [reviewerEvents, phasesOf, List.flatMap_cons] at ih ⊢; exact ih

theorem runFull_trace (reviewers : List Reviewer) (reviewerIds : List String)
    (content : List Char) (responses : String → Option (List Char))
    (editorResponse : Option (List Char)) (s0 : CouncilState) (cr : List Reviewer)
    (h : reviewers.filter (fun r => reviewerIds.contains r.id && !r.isEditor) = cr)
    (hne : cr ≠ []) :
    (runFullCouncilReview reviewers reviewerIds content responses editorResponse s0).2 =
      Event.phase "council_reviewing" :: (reviewerEvents responses cr ++
        (match getEditorReviewer reviewers with
         | some _ => [Event.phase "editor_synthesizing", Event.synthesisStart,
                      Event.phase "user_deciding"]
         | none => [Event.phase "user_deciding"])) := by
  have hemp : cr.isEmpty = false := by
    cases cr with
    | nil => exact absurd rfl hne
    | cons a l => rfl
  simp only [runFullCouncilReview]
  rw [h]
  simp only [hemp, Bool.false_eq_true, if_false]
  cases hed : getEditorReviewer reviewers with
  | none => simp [councilLoop_trace2]
  | some ed => simp [councilLoop_trace2]

theorem runFull_phase (reviewers : List Reviewer) (reviewerIds : List String)
    (content : List Char) (responses : String → Option (List Char))
    (editorResponse : Option (List Char)) (s0 : CouncilState) (cr : List Reviewer)
    (h : reviewers.filter (fun r => reviewerIds.contains r.id && !r.isEditor) = cr)
    (hne : cr ≠ []) :
    (runFullCouncilReview reviewers reviewerIds content responses editorResponse
        s0).1.reviewPhase = "user_deciding" := by
  have hemp : cr.isEmpty = false := by
    cases cr with
    | nil => exact absurd rfl hne
    | cons a l => rfl
  simp only [runFullCouncilReview]
  rw [h]
  simp only [hemp, Bool.false_eq_true, if_false]
  cases hed : getEditorReviewer reviewers with
  | none => simp [setReviewPhase]
  | some ed => simp [setReviewPhase]

theorem runFull_councilFeedback (reviewers : List Reviewer) (reviewerIds : List String)
    (content : List Char) (responses : String → Option (List Char))
    (editorResponse : Option (List Char)) (s0 : CouncilState) (cr : List Reviewer)
    (h : reviewers.filter (fun r => reviewerIds.contains r.id && !r.isEditor) = cr)
    (hne : cr ≠ []) :
    (runFullCouncilReview reviewers reviewerIds content responses editorResponse
        s0).1.councilFeedback = councilEntries content responses cr := by
  have hemp : cr.isEmpty = false := by
    cases cr with
    | nil => exact absurd rfl hne
    | cons a l => rfl
  simp only [runFullCouncilReview]
  rw [h]
  simp only [hemp, Bool.false_eq_true, if_false]
  cases hed : getEditorReviewer reviewers with
  | none =>
    simp [setReviewPhase, councilLoop_councilFeedback2, initReviewDocument]
  | some ed =>
    simp only [setReviewPhase]
    split
    · simp [setEditorSynthesis, councilLoop_councilFeedback2, initReviewDocument,
        setReviewPhase]
    · simp [councilLoop_councilFeedback2, initReviewDocument, setReviewPhase]

theorem runFull_sessionSummary (reviewers : List Reviewer) (reviewerIds : List String)
    (content : List Char) (responses : String → Option (List Char))
    (editorResponse : Option (List Char)) (s0 : CouncilState) (cr : List Reviewer)
    (h : reviewers.filter (fun r => reviewerIds.contains r.id && !r.isEditor) = cr)
    (hne : cr ≠ []) :
    (runFullCouncilReview reviewers reviewerIds content responses editorResponse
        s0).1.sessionSummary = s0.sessionSummary := by
  have hemp : cr.isEmpty = false := by
    cases cr with
    | nil => exact absurd rfl hne
    | cons a l => rfl
  simp only [runFullCouncilReview]
  rw [h]
  simp only [hemp, Bool.false_eq_true, if_false]
  cases hed : getEditorReviewer reviewers with
  | none =>
    simp [setReviewPhase, councilLoop_sessionSummary2, initReviewDocument]
  | some ed =>
    simp only [setReviewPhase]
    split
    · simp [setEditorSynthesis, councilLoop_sessionSummary2, initReviewDocument,
        setReviewPhase]
    · simp [councilLoop_sessionSummary2, initReviewDocument, setReviewPhase]

theorem jsWs_cases (c : Char) (h : jsWs c = true) :
    c = ' ' ∨ c = '\t' ∨ c = '\r' ∨ c = '\n' := by
  simp only [jsWs, Bool.or_eq_true, decide_eq_true_eq] at h
  tauto

theorem arrMatchAt_ws (c : Char) (cs : List Char) (h : jsWs c = true) :
    arrMatchAt (c :: cs) = none := by
  rcases jsWs_cases c h with rfl | rfl | rfl | rfl <;> rfl

theorem p1At_ws (c : Char) (cs : List Char) (h : jsWs c = true) :
    p1At (c :: cs) = none := by
  rcases jsWs_cases c h with rfl | rfl | rfl | rfl <;> rfl

theorem p2At_ws (c : Char) (cs : List Char) (h : jsWs c = true) :
    p2At (c :: cs) = none := by
  rcases jsWs_cases c h with rfl | rfl | rfl | rfl <;>
    simp [p2At, List.takeWhile]

theorem p3At_ws (c : Char) (cs : List Char) (h : jsWs c = true) :
    p3At (c :: cs) = none := by
  rcases jsWs_cases c h with rfl | rfl | rfl | rfl <;> rfl

theorem jsonArrayMatch_ws (cs : List Char) (h : ∀ c ∈ cs, jsWs c = true) :
    jsonArrayMatch cs = none := by
  induction cs with
  | nil => rfl
  | cons c cs ih =>
    have hc : jsWs c = true := h c (List.mem_cons_self c cs)
    have ih' := ih (fun d hd => h d (List.mem_cons_of_mem c hd))
    simp [jsonArrayMatch, arrMatchAt_ws c cs hc, ih']

theorem execAllAux_ws (pat : List Char → Option ((Option Nat × List Char) × List Char))
    (hpat : ∀ c cs, jsWs c = true → pat (c :: cs) = none) (fuel : Nat) (cs : List Char)
    (h : ∀ c ∈ cs, jsWs c = true) : execAllAux pat fuel cs = [] := by
  induction fuel generalizing cs with
  | zero => rfl
  | succ fuel ih =>
    cases cs with
    | nil => rfl
    | cons c cs =>
      have hc : jsWs c = true := h c (List.mem_cons_self c cs)
      simp [execAllAux, hpat c cs hc, ih cs (fun d hd => h d (List.mem_cons_of_mem c hd))]

theorem jsTrim_ws (cs : List Char) (h : ∀ c ∈ cs, jsWs c = true) : jsTrim cs = [] := by
  have h1 : cs.dropWhile jsWs = [] := List.dropWhile_eq_nil_iff.mpr h
  simp [jsTrim, h1]

theorem keptOf_mem (ms : List (Option Nat × List Char)) (f : ParsedFeedback)
    (hf : f ∈ keptOf ms) :
    f.text = [] ∧ 10 < f.comment.length ∧ f.type = inferCommentType f.comment ∧
      f.suggestion = none ∧
      ∃ m ∈ ms, f.comment = jsTrim m.2 ∧ f.line = ((m.1.getD 1 : Nat) : Int) := by
  rcases List.mem_filterMap.mp hf with ⟨m, hms, hm⟩
  rcases m with ⟨o, g⟩
  dsimp only at hm
  split at hm
  case isTrue h10 =>
    cases hm
    refine ⟨rfl, ?_, rfl, rfl, ⟨(o, g), hms, rfl, ?_⟩⟩
    · simpa using h10
    · cases o <;> rfl
  case isFalse h10 => exact absurd hm (by simp)

theorem residentMatches_self (n : String) : residentMatches n n = true := by
  simp [residentMatches]

/-! ## Claim theorems -/

/-- Claim C8 (confirmed): `ensureModelLoaded M` with `M` already the sole
resident model returns success immediately with zero eviction requests
(only the `/api/ps` listing); with a different model `N` sole resident it
issues exactly one eviction of `N` followed by exactly one
load-confirmation request against `M`, and returns the load's success
result. -/
theorem C8_residency :
    (∀ (g : Gateway) (M : String), g.resident = [M] →
      ensureModelLoaded g M = (true, g, [MMEvent.ps])) ∧
    (∀ (g : Gateway) (N M : String), g.resident = [N] → residentMatches N M = false →
      ensureModelLoaded g M =
        (g.loadOk, ⟨if g.loadOk then [M] else [], g.loadOk⟩,
          [MMEvent.ps, MMEvent.unloadReq N, MMEvent.ps, MMEvent.ps, MMEvent.loadReq M] ++
            (if g.loadOk then [MMEvent.ps] else [])) ∧
      (ensureModelLoaded g M).2.2.filter isUnloadEv = [MMEvent.unloadReq N] ∧
      (ensureModelLoaded g M).2.2.filter isLoadEv = [MMEvent.loadReq M]) := by
  constructor
  · intro g M h
    rcases g with ⟨res, lo⟩
    cases h
    simp [ensureModelLoaded, getLoadedModels, residentMatches_self]
  · intro g N M h hnm
    rcases g with ⟨res, lo⟩
    cases h
    have heq : ensureModelLoaded ⟨[N], lo⟩ M =
        (lo, ⟨if lo then [M] else [], lo⟩,
          [MMEvent.ps, MMEvent.unloadReq N, MMEvent.ps, MMEvent.ps, MMEvent.loadReq M] ++
            (if lo then [MMEvent.ps] else [])) := by
      cases lo <;>
        simp [ensureModelLoaded, getLoadedModels, unloadModel, loadModel, isModelLoaded,
          residentMatches_self, hnm]
    refine ⟨heq, ?_, ?_⟩ <;> rw [heq] <;> cases lo <;> rfl

/-- Witness for C8: the no-op fast path on resident `m`, and the
evict-then-load path from resident `n` to `m`. -/
theorem C8_residency_witness :
    ensureModelLoaded ⟨["m"], true⟩ "m" = (true, ⟨["m"], true⟩, [MMEvent.ps]) ∧
    ensureModelLoaded ⟨["n"], true⟩ "m" =
      (true, ⟨["m"], true⟩,
        [MMEvent.ps, MMEvent.unloadReq "n", MMEvent.ps, MMEvent.ps, MMEvent.loadReq "m",
         MMEvent.ps]) := by
  constructor
  · exact C8_residency.1 ⟨["m"], true⟩ "m" rfl
  · have h := (C8_residency.2 ⟨["n"], true⟩ "n" "m" rfl (by decide)).1
    simpa using h

/-- Claim C9 (confirmed): when no JSON object can be parsed from the
editor response, the Synthesis Stage still returns an `EditorSynthesis`
whose `overallAssessment` is the first 500 characters of the raw response
and whose `prioritizedChanges` is empty; it does not throw on such
malformed output. -/
theorem C9_synthesisFallback :
    ∀ (editor : Reviewer) (responseText : List Char) (s : CouncilState),
      editorParsed responseText = none → s.reviewDocInit = true →
      buildSynthesis editor responseText =
        Except.ok ⟨editor.id, editor.model, Json.str (responseText.take 500), []⟩ ∧
      runEditorSynthesis editor (some responseText) s =
        Except.ok ⟨editor.id, editor.model, Json.str (responseText.take 500), []⟩ ∧
      (responseText.take 500).length ≤ 500 := by
  intro editor responseText s hp hs
  have hb : buildSynthesis editor responseText =
      Except.ok ⟨editor.id, editor.model, Json.str (responseText.take 500), []⟩ := by
    simp [buildSynthesis, hp]
  refine ⟨hb, ?_, ?_⟩
  · simp [runEditorSynthesis, hs, hb]
  · exact List.length_take_le 500 responseText

/-- Witness for C9: a plain-prose editor response yields the degraded
synthesis. -/
theorem C9_synthesisFallback_witness :
    buildSynthesis rvEd c9Response =
      Except.ok ⟨"ed", "modelE", Json.str (c9Response.take 500), []⟩ := by
  exact (C9_synthesisFallback rvEd c9Response ⟨"idle", true, [], none, [], [], none⟩
    rfl rfl).1

/-- Claim C10 (confirmed): every ReviewComment built from a parsed
feedback item is a single-line range at the parsed line, carries
confidence `0.8` and disposition `pending`, and when the parser supplied
no quoted text its `originalText` is the literal document line at the
clamped index, which always lies in the valid range of the split document
(so line 0, negative, or past-the-end numbers never fail). -/
theorem C10_commentInvariants :
    ∀ (reviewer : Reviewer) (content : List Char) (f : ParsedFeedback),
      (mkReviewComment reviewer content f).startLine = f.line ∧
      (mkReviewComment reviewer content f).endLine = f.line ∧
      (mkReviewComment reviewer content f).confidence = 4 / 5 ∧
      (mkReviewComment reviewer content f).status = "pending".toList ∧
      (f.text = [] → (mkReviewComment reviewer content f).originalText =
        getTextAtLine content f.line) ∧
      (f.text ≠ [] → (mkReviewComment reviewer content f).originalText = f.text) ∧
      ∃ idx : Nat, idx < (splitNl content).length ∧
        getTextAtLine content f.line = (splitNl content).getD idx [] ∧
        (idx : Int) = max 0 (min (f.line - 1) (((splitNl content).length : Int) - 1)) := by
  intro reviewer content f
  refine ⟨rfl, rfl, rfl, rfl, ?_, ?_, ?_⟩
  · intro h
    simp [mkReviewComment, h]
  · intro h
    simp [mkReviewComment, List.isEmpty_iff, h]
  · have hpos := splitNl_length_pos content
    refine ⟨(max 0 (min (f.line - 1) (((splitNl content).length : Int) - 1))).toNat,
      ?_, rfl, ?_⟩
    · have h1 : max 0 (min (f.line - 1) (((splitNl content).length : Int) - 1)) ≤
          ((splitNl content).length : Int) - 1 := by
        apply max_le
        · omega
        · exact min_le_right _ _
      omega
    · have h0 : (0 : Int) ≤
          max 0 (min (f.line - 1) (((splitNl content).length : Int) - 1)) :=
        le_max_left _ _
      omega

/-- Witness for C10: a Finding at line 0 with no quoted text clamps to the
first document line. -/
theorem C10_commentInvariants_witness :
    (mkReviewComment rvA1 docTwoLines c10Item).originalText = "Line one.".toList ∧
    (mkReviewComment rvA1 docTwoLines c10Item).startLine = 0 ∧
    (mkReviewComment rvA1 docTwoLines c10Item).confidence = 4 / 5 ∧
    (mkReviewComment rvA1 docTwoLines c10Item).status = "pending".toList := by
  have h := C10_commentInvariants rvA1 docTwoLines c10Item
  refine ⟨?_, h.1, h.2.2.1, h.2.2.2.1⟩
  have h5 := h.2.2.2.2.1 rfl
  rw [h5]
  rfl

theorem isEmpty_false_of_ne_nil {α : Type} {l : List α} (h : l ≠ []) :
    l.isEmpty = false := by
  cases l with
  | nil => exact absurd rfl h
  | cons a t => rfl

/-- Claim C3 (corrected): on a response containing a well-formed JSON
array of objects, `parseFeedback` returns exactly one Finding per element
and no fallback strategy is consulted; but the `||` defaults replace any
falsy field, so a present `line: 0` becomes 1 and a present empty `type`
becomes `suggestion` — fields are preserved verbatim only when truthy.
This theorem proves the amended statement. -/
theorem C3_jsonStrategy :
    ∀ (response sub : List Char) (items : List Json),
      jsonArrayMatch response = some sub →
      jsonParse sub = some (Json.arr items) →
      items.any jsonIsNull = false →
      parseFeedback response = items.map jsonItemToFeedback ∧
      (parseFeedback response).length = items.length ∧
      (∀ item : Json, ∀ n : Int, jsGetField item "line".toList = some (Json.num n) →
        n ≠ 0 → (jsonItemToFeedback item).line = n) ∧
      (∀ item : Json, jsGetField item "line".toList = none →
        (jsonItemToFeedback item).line = 1) ∧
      (∀ item : Json, ∀ t : List Char,
        jsGetField item "type".toList = some (Json.str t) → t ≠ [] →
        (jsonItemToFeedback item).type = t) ∧
      (∀ item : Json, jsGetField item "type".toList = none →
        (jsonItemToFeedback item).type = "suggestion".toList) ∧
      (∀ item : Json, ∀ t : List Char,
        jsGetField item "comment".toList = some (Json.str t) →
        (jsonItemToFeedback item).comment = t) ∧
      (∀ item : Json, ∀ t : List Char,
        jsGetField item "suggestion".toList = some (Json.str t) →
        (jsonItemToFeedback item).suggestion = some t) := by
  intro response sub items hm hp hn
  have h1 : parseFeedback response = items.map jsonItemToFeedback := by
    simp [parseFeedback, tryJsonStrategy, hm, hp, hn]
  refine ⟨h1, by simp [h1], ?_, ?_, ?_, ?_, ?_, ?_⟩
  · intro item n hf hne
    have hf' : jsGetField item ['l', 'i', 'n', 'e'] = some (Json.num n) := hf
    simp [jsonItemToFeedback, hf', hne]
  · intro item hf
    have hf' : jsGetField item ['l', 'i', 'n', 'e'] = none := hf
    simp [jsonItemToFeedback, hf']
  · intro item t hf hne
    have hf' : jsGetField item ['t', 'y', 'p', 'e'] = some (Json.str t) := hf
    simp [jsonItemToFeedback, hf', hne]
  · intro item hf
    have hf' : jsGetField item ['t', 'y', 'p', 'e'] = none := hf
    simp [jsonItemToFeedback, hf']
  · intro item t hf
    have hf' : jsGetField item ['c', 'o', 'm', 'm', 'e', 'n', 't'] = some (Json.str t) := hf
    simp [jsonItemToFeedback, hf']
  · intro item t hf
    have hf' : jsGetField item ['s', 'u', 'g', 'g', 'e', 's', 't', 'i', 'o', 'n'] =
        some (Json.str t) := hf
    simp [jsonItemToFeedback, hf']

/-- Counterexample to C3 as stated: the element of this well-formed JSON
array carries the explicit field `line: 0`, yet the parsed Finding's line
is 1, not the verbatim 0. -/
theorem C3_jsonStrategy_counterexample :
    jsonArrayMatch c3Response = some c3Response ∧
    jsonParse c3Response = some (Json.arr c3Items) ∧
    jsGetField (c3Items.getD 0 Json.null) "line".toList = some (Json.num 0) ∧
    (parseFeedback c3Response).map (fun f => f.line) = [1] := by
  exact ⟨rfl, rfl, rfl, rfl⟩

/-- Witness for C3: a well-typed array element with truthy fields is
mapped one-to-one. -/
theorem C3_jsonStrategy_witness :
    parseFeedback c3wResponse = c3wItems.map jsonItemToFeedback ∧
    (parseFeedback c3wResponse).map (fun f => f.line) = [2] := by
  have h := C3_jsonStrategy c3wResponse c3wResponse c3wItems rfl rfl rfl
  refine ⟨h.1, ?_⟩
  rw [h.1]
  rfl

/-- Claim C4 (corrected): when the JSON strategy yields nothing,
`parseFeedback` uses the first line pattern for which at least one match
has trimmed content of more than 10 characters, exclusively, producing one
Finding per such retained match in document order with the parsed line
number (1 when the capture is absent); matches whose trimmed content has
10 or fewer characters are discarded (not only those shorter than 10), and
a pattern whose matches are all discarded is skipped even though it
matched.  This theorem proves the amended statement. -/
theorem C4_linePatterns :
    ∀ response : List Char, tryJsonStrategy response = none →
      tryPatterns response ≠ [] →
      parseFeedback response = tryPatterns response ∧
      ((keptOf (execAll p1At response) ≠ [] ∧
          tryPatterns response = keptOf (execAll p1At response)) ∨
       (keptOf (execAll p1At response) = [] ∧ keptOf (execAll p2At response) ≠ [] ∧
          tryPatterns response = keptOf (execAll p2At response)) ∨
       (keptOf (execAll p1At response) = [] ∧ keptOf (execAll p2At response) = [] ∧
          keptOf (execAll p3At response) ≠ [] ∧
          tryPatterns response = keptOf (execAll p3At response))) ∧
      (∀ (pat : List Char → Option ((Option Nat × List Char) × List Char))
          (f : ParsedFeedback), f ∈ keptOf (execAll pat response) →
        f.text = [] ∧ 10 < f.comment.length ∧ f.type = inferCommentType f.comment ∧
        f.suggestion = none ∧
        ∃ m ∈ execAll pat response, f.comment = jsTrim m.2 ∧
          f.line = ((m.1.getD 1 : Nat) : Int)) := by
  intro response hjson hne
  have hemp : (tryPatterns response).isEmpty = false := isEmpty_false_of_ne_nil hne
  refine ⟨by simp [parseFeedback, hjson, hemp], ?_, ?_⟩
  · by_cases h1 : keptOf (execAll p1At response) = []
    · by_cases h2 : keptOf (execAll p2At response) = []
      · right; right
        have ht : tryPatterns response = keptOf (execAll p3At response) := by
          simp [tryPatterns, h1, h2]
        exact ⟨h1, h2, ht ▸ hne, ht⟩
      · right; left
        have ht : tryPatterns response = keptOf (execAll p2At response) := by
          simp [tryPatterns, h1, isEmpty_false_of_ne_nil h2]
        exact ⟨h1, h2, ht⟩
    · left
      have ht : tryPatterns response = keptOf (execAll p1At response) := by
        simp [tryPatterns, isEmpty_false_of_ne_nil h1]
      exact ⟨h1, ht⟩
  · intro pat f hf
    exact keptOf_mem _ f hf

/-- Counterexample to C4 as stated: pattern 1 matches one occurrence whose
content `shortstuff` has exactly 10 characters — not shorter than 10, yet
discarded — and the output comes from pattern 2 instead of the first
matching pattern. -/
theorem C4_linePatterns_counterexample :
    tryJsonStrategy c4Response = none ∧
    execAll p1At c4Response = [(some 2, "shortstuff".toList)] ∧
    (jsTrim "shortstuff".toList).length = 10 ∧
    parseFeedback c4Response =
      [⟨1, "suggestion".toList, [],
        "this content is long enough to keep".toList, none⟩] := by
  exact ⟨rfl, rfl, rfl, rfl⟩

/-- Witness for C4: a single well-shaped `Line N:` comment is parsed via
pattern 1. -/
theorem C4_linePatterns_witness :
    parseFeedback c4wResponse = tryPatterns c4wResponse ∧
    tryPatterns c4wResponse =
      [⟨3, "error".toList, [],
        "this sentence has a problem with wrong facts".toList, none⟩] := by
  have h := C4_linePatterns c4wResponse rfl (by decide)
  exact ⟨h.1, rfl⟩

/-- Claim C5 (corrected): when neither prior strategy yields a Finding,
`parseFeedback` produces exactly one Finding — anchored at line 1, type
`suggestion`, comment the trimmed response truncated to 500 characters —
only when the trimmed response is longer than 20 characters; any shorter
response (not merely the empty or whitespace-only ones) yields zero
Findings, and empty or whitespace-only responses always yield zero.  This
theorem proves the amended statement. -/
theorem C5_generalFallback :
    (∀ response : List Char, tryJsonStrategy response = none →
      tryPatterns response = [] →
      (20 < (jsTrim response).length →
        parseFeedback response =
          [⟨1, "suggestion".toList, [], (jsTrim response).take 500, none⟩] ∧
        (parseFeedback response).length = 1 ∧
        ∀ f ∈ parseFeedback response, f.comment.length ≤ 500) ∧
      ((jsTrim response).length ≤ 20 → parseFeedback response = [])) ∧
    (∀ response : List Char, (∀ c ∈ response, jsWs c = true) →
      parseFeedback response = []) := by
  constructor
  · intro response hjson hpat
    have hemp : (tryPatterns response).isEmpty = true := by simp [hpat]
    constructor
    · intro h20
      have h1 : parseFeedback response =
          [⟨1, "suggestion".toList, [], (jsTrim response).take 500, none⟩] := by
        simp [parseFeedback, hjson, hemp, h20]
      refine ⟨h1, by simp [h1], ?_⟩
      intro f hf
      rw [h1] at hf
      simp only [List.mem_singleton] at hf
      subst hf
      exact List.length_take_le 500 (jsTrim response)
    · intro h20
      have h20' : ¬ 20 < (jsTrim response).length := by omega
      simp [parseFeedback, hjson, hemp, h20']
  · intro response hws
    have hjson : tryJsonStrategy response = none := by
      simp [tryJsonStrategy, jsonArrayMatch_ws response hws]
    have hpat : tryPatterns response = [] := by
      simp [tryPatterns, execAll, execAllAux_ws p1At p1At_ws response.length response hws,
        execAllAux_ws p2At p2At_ws response.length response hws,
        execAllAux_ws p3At p3At_ws response.length response hws, keptOf]
    have htrim : jsTrim response = [] := jsTrim_ws response hws
    have hemp : (tryPatterns response).isEmpty = true := by simp [hpat]
    simp [parseFeedback, hjson, hemp, htrim]

/-- Counterexample to C5 as stated: `short reply` is non-empty and matched
by no strategy, yet zero Findings are produced because its trimmed length
11 does not exceed 20. -/
theorem C5_generalFallback_counterexample :
    tryJsonStrategy c5Response = none ∧ tryPatterns c5Response = [] ∧
    c5Response ≠ [] ∧ (jsTrim c5Response).length = 11 ∧
    parseFeedback c5Response = [] := by
  refine ⟨rfl, rfl, by decide, rfl, rfl⟩

/-- Witness for C5: a 37-character unstructured response yields the single
truncated general Finding. -/
theorem C5_generalFallback_witness :
    parseFeedback c5wResponse =
      [⟨1, "suggestion".toList, [], (jsTrim c5wResponse).take 500, none⟩] := by
  exact ((C5_generalFallback.1 c5wResponse rfl rfl).1 (by decide)).1

/-- Claim C6 (corrected): on a thrown transport error `runReviewer` marks
the reviewer's progress `error` but re-throws the exception instead of
swallowing it; it is the calling council loop that catches it, records no
feedback for that reviewer, and continues.  On success `runReviewer` marks
progress `complete` and returns the parsed comments.  This theorem proves
the amended statement. -/
theorem C6_errorPropagation :
    ∀ (reviewer : Reviewer) (content : List Char) (s : CouncilState),
      (runReviewer reviewer content none s).1 = Except.error () ∧
      progressOf (runReviewer reviewer content none s).2 reviewer.id = some "error" ∧
      (∀ text : List Char,
        (runReviewer reviewer content (some text) s).1 =
          Except.ok (taskComments content reviewer text) ∧
        progressOf (runReviewer reviewer content (some text) s).2 reviewer.id =
          some "complete") ∧
      (∀ (responses : String → Option (List Char)) (evs : List Event),
        responses reviewer.id = none →
        (councilStep content responses (s, evs) reviewer).1.councilFeedback =
          s.councilFeedback ∧
        (councilStep content responses (s, evs) reviewer).2 =
          evs ++ [Event.reviewerStart reviewer.id,
                  Event.reviewerDone reviewer.id false]) := by
  intro reviewer content s
  refine ⟨rfl, progressOf_set_same _ _ _, ?_, ?_⟩
  · intro text
    exact ⟨rfl, progressOf_set_same _ _ _⟩
  · intro responses evs hr
    constructor
    · simp [councilStep, hr, runReviewer, setReviewProgress]
    · simp [councilStep, hr, runReviewer]

/-- Counterexample to C6 as stated: a failed task leaves `runReviewer`
with a propagated exception, not a (possibly empty) list of Findings. -/
theorem C6_errorPropagation_counterexample :
    (runReviewer rvA1 docTwoLines none idleState).1 = Except.error () ∧
    (¬ ∃ comments : List ReviewComment,
      (runReviewer rvA1 docTwoLines none idleState).1 = Except.ok comments) ∧
    progressOf (runReviewer rvA1 docTwoLines none idleState).2 "a1" = some "error" := by
  refine ⟨rfl, ?_, rfl⟩
  rintro ⟨c, hc⟩
  simp [runReviewer] at hc

/-- Witness for C6: the success and failure paths at concrete inputs. -/
theorem C6_errorPropagation_witness :
    (runReviewer rvA1 docTwoLines (some okResponse) idleState).1 =
      Except.ok (taskComments docTwoLines rvA1 okResponse) ∧
    progressOf (runReviewer rvA2 docTwoLines none idleState).2 "a2" = some "error" := by
  refine ⟨((C6_errorPropagation rvA1 docTwoLines idleState).2.2.1 okResponse).1, ?_⟩
  exact (C6_errorPropagation rvA2 docTwoLines idleState).2.1

theorem startsOf_cons_phase (p : String) (evs : List Event) :
    startsOf (Event.phase p :: evs) = startsOf evs := rfl

theorem startsOf_append (l1 l2 : List Event) :
    startsOf (l1 ++ l2) = startsOf l1 ++ startsOf l2 :=
  List.filterMap_append l1 l2 _

theorem startsOf_cons_synth (evs : List Event) :
    startsOf (Event.synthesisStart :: evs) = startsOf evs := rfl

theorem startsOf_nil : startsOf [] = [] := rfl

theorem phasesOf_cons_phase (p : String) (evs : List Event) :
    phasesOf (Event.phase p :: evs) = p :: phasesOf evs := rfl

theorem phasesOf_append (l1 l2 : List Event) :
    phasesOf (l1 ++ l2) = phasesOf l1 ++ phasesOf l2 :=
  List.filterMap_append l1 l2 _

theorem phasesOf_cons_synth (evs : List Event) :
    phasesOf (Event.synthesisStart :: evs) = phasesOf evs := rfl

theorem phasesOf_nil : phasesOf [] = [] := rfl

/-- Claim C1 (corrected): `runFullCouncilReview` issues no residency
(`ensureLoaded`) requests at all — each reviewer's generate call loads its
model implicitly — and executes the enabled council reviewers strictly in
their configured order, with no grouping of same-model reviewers; the
execution order (and hence the completion of every reviewer, failed tasks
included) holds for every response oracle.  This theorem proves the
amended statement. -/
theorem C1_orchestration :
    ∀ (reviewers : List Reviewer) (reviewerIds : List String) (content : List Char)
      (responses : String → Option (List Char)) (editorResponse : Option (List Char))
      (s0 : CouncilState),
      (runFullCouncilReview reviewers reviewerIds content responses editorResponse
          s0).2.filter isEnsureEv = [] ∧
      startsOf (runFullCouncilReview reviewers reviewerIds content responses
          editorResponse s0).2 =
        (reviewers.filter (fun r => reviewerIds.contains r.id && !r.isEditor)).map
          (fun r => r.id) := by
  intro reviewers reviewerIds content responses editorResponse s0
  cases hc : reviewers.filter (fun r => reviewerIds.contains r.id && !r.isEditor) with
  | nil =>
    have hrun : runFullCouncilReview reviewers reviewerIds content responses
        editorResponse s0 = (s0, []) := by
      simp only [runFullCouncilReview]
      rw [hc]
      rfl
    rw [hrun]
    exact ⟨rfl, rfl⟩
  | cons r rs =>
    have htr := runFull_trace reviewers reviewerIds content responses editorResponse s0
      (r :: rs) hc (by simp)
    rw [htr]
    constructor
    · cases hed : getEditorReviewer reviewers <;>
        simp [isEnsureEv, List.filter_append, reviewerEvents_filter_ensure]
    · cases hed : getEditorReviewer reviewers <;>
        simp [startsOf_cons_phase, startsOf_cons_synth, startsOf_append,
          startsOf_reviewerEvents, startsOf_nil]

/-- Counterexample to C1 as stated: with council models `A`, `B`, `A` in
configuration order, the run triggers zero `ensureLoaded` calls (not one
per reviewer) and executes in the order `a1`, `b`, `a2`, so the two
same-model reviewers are not adjacent. -/
theorem C1_orchestration_counterexample :
    (runFullCouncilReview [rvA1, rvB, rvA2] ["a1", "b", "a2"] docTwoLines allOk none
        idleState).2.filter isEnsureEv = [] ∧
    startsOf (runFullCouncilReview [rvA1, rvB, rvA2] ["a1", "b", "a2"] docTwoLines
        allOk none idleState).2 = ["a1", "b", "a2"] ∧
    [rvA1.model, rvB.model, rvA2.model] = ["modelA", "modelB", "modelA"] := by
  exact ⟨rfl, rfl, rfl⟩

/-- Claim C2 (corrected): a full council run with three council reviewers
in which exactly the second one throws a transport error still ends in
`user_deciding`, with `councilFeedback` holding exactly the two successful
reviewers' Findings in order; but the failure is recorded only in the
event trace and progress state — the run writes no session summary at all,
so the failed reviewer is not noted in any summary.  This theorem proves
the amended statement. -/
theorem C2_partialFailure :
    ∀ (reviewers : List Reviewer) (reviewerIds : List String) (content : List Char)
      (responses : String → Option (List Char)) (editorResponse : Option (List Char))
      (s0 : CouncilState) (r1 r2 r3 : Reviewer) (t1 t3 : List Char),
      reviewers.filter (fun r => reviewerIds.contains r.id && !r.isEditor) =
        [r1, r2, r3] →
      responses r1.id = some t1 → responses r2.id = none → responses r3.id = some t3 →
      s0.sessionSummary = none →
      (runFullCouncilReview reviewers reviewerIds content responses editorResponse
          s0).1.reviewPhase = "user_deciding" ∧
      (runFullCouncilReview reviewers reviewerIds content responses editorResponse
          s0).1.councilFeedback =
        [⟨r1.id, taskComments content r1 t1,
          reviewerSummary r1 (taskComments content r1 t1), r1.model⟩,
         ⟨r3.id, taskComments content r3 t3,
          reviewerSummary r3 (taskComments content r3 t3), r3.model⟩] ∧
      (runFullCouncilReview reviewers reviewerIds content responses editorResponse
          s0).1.sessionSummary = none ∧
      Event.reviewerDone r2.id false ∈
        (runFullCouncilReview reviewers reviewerIds content responses editorResponse
          s0).2 := by
  intro reviewers reviewerIds content responses editorResponse s0 r1 r2 r3 t1 t3 h hr1
    hr2 hr3 hsum
  have hne : ([r1, r2, r3] : List Reviewer) ≠ [] := by simp
  refine ⟨runFull_phase reviewers reviewerIds content responses editorResponse s0 _
    h hne, ?_, ?_, ?_⟩
  · rw [runFull_councilFeedback reviewers reviewerIds content responses editorResponse
      s0 _ h hne]
    simp [councilEntries, hr1, hr2, hr3]
  · rw [runFull_sessionSummary reviewers reviewerIds content responses editorResponse
      s0 _ h hne, hsum]
  · rw [runFull_trace reviewers reviewerIds content responses editorResponse s0 _
      h hne]
    cases hed : getEditorReviewer reviewers <;> simp [reviewerEvents, hr2]

/-- Counterexample to C2 as stated: in the concrete three-reviewer run
where reviewer `b` fails, the run does reach `user_deciding` with the two
successes' feedback, but its session summary is `none` — the failed
reviewer is noted in no summary. -/
theorem C2_partialFailure_counterexample :
    (runFullCouncilReview [rvA1, rvB, rvA2] ["a1", "b", "a2"] docTwoLines bFails none
        idleState).1.reviewPhase = "user_deciding" ∧
    (runFullCouncilReview [rvA1, rvB, rvA2] ["a1", "b", "a2"] docTwoLines bFails none
        idleState).1.councilFeedback.map (fun e => e.reviewerId) = ["a1", "a2"] ∧
    (runFullCouncilReview [rvA1, rvB, rvA2] ["a1", "b", "a2"] docTwoLines bFails none
        idleState).1.sessionSummary = none := by
  exact ⟨rfl, rfl, rfl⟩

/-- Witness for C2: the amended statement at the concrete failing run. -/
theorem C2_partialFailure_witness :
    (runFullCouncilReview [rvA1, rvB, rvA2] ["a1", "b", "a2"] docTwoLines bFails none
        idleState).1.councilFeedback =
      [⟨"a1", taskComments docTwoLines rvA1 okResponse,
        reviewerSummary rvA1 (taskComments docTwoLines rvA1 okResponse), "modelA"⟩,
       ⟨"a2", taskComments docTwoLines rvA2 okResponse,
        reviewerSummary rvA2 (taskComments docTwoLines rvA2 okResponse), "modelA"⟩] ∧
    Event.reviewerDone "b" false ∈
      (runFullCouncilReview [rvA1, rvB, rvA2] ["a1", "b", "a2"] docTwoLines bFails none
        idleState).2 := by
  have h := C2_partialFailure [rvA1, rvB, rvA2] ["a1", "b", "a2"] docTwoLines bFails
    none idleState rvA1 rvB rvA2 okResponse okResponse (by decide) rfl rfl rfl rfl
  exact ⟨h.2.1, h.2.2.2⟩

/-- Claim C7 (confirmed): within one run the phases move strictly forward
`idle → council_reviewing → editor_synthesizing → user_deciding` with no
phase revisited; `editor_synthesizing` is entered exactly when an editor
reviewer is configured and enabled (otherwise the run skips straight to
`user_deciding`); and the synthesis call is scheduled strictly after every
council reviewer task has settled, observing the final `councilFeedback`. -/
theorem C7_phases :
    ∀ (reviewers : List Reviewer) (reviewerIds : List String) (content : List Char)
      (responses : String → Option (List Char)) (editorResponse : Option (List Char))
      (s0 : CouncilState) (cr : List Reviewer),
      reviewers.filter (fun r => reviewerIds.contains r.id && !r.isEditor) = cr →
      cr ≠ [] → s0.reviewPhase = "idle" →
      (runFullCouncilReview reviewers reviewerIds content responses editorResponse
          s0).2 =
        Event.phase "council_reviewing" :: (reviewerEvents responses cr ++
          (match getEditorReviewer reviewers with
           | some _ => [Event.phase "editor_synthesizing", Event.synthesisStart,
                        Event.phase "user_deciding"]
           | none => [Event.phase "user_deciding"])) ∧
      phasesOf (runFullCouncilReview reviewers reviewerIds content responses
          editorResponse s0).2 =
        "council_reviewing" :: (match getEditorReviewer reviewers with
          | some _ => ["editor_synthesizing", "user_deciding"]
          | none => ["user_deciding"]) ∧
      ("idle" :: phasesOf (runFullCouncilReview reviewers reviewerIds content responses
          editorResponse s0).2).Sublist
        ["idle", "council_reviewing", "editor_synthesizing", "user_deciding"] ∧
      (phasesOf (runFullCouncilReview reviewers reviewerIds content responses
          editorResponse s0).2).Nodup ∧
      (runFullCouncilReview reviewers reviewerIds content responses editorResponse
          s0).1.reviewPhase = "user_deciding" ∧
      (runFullCouncilReview reviewers reviewerIds content responses editorResponse
          s0).1.councilFeedback = councilEntries content responses cr := by
  intro reviewers reviewerIds content responses editorResponse s0 cr h hne hidle
  have htr := runFull_trace reviewers reviewerIds content responses editorResponse s0
    cr h hne
  have hph : phasesOf (runFullCouncilReview reviewers reviewerIds content responses
      editorResponse s0).2 =
      "council_reviewing" :: (match getEditorReviewer reviewers with
        | some _ => ["editor_synthesizing", "user_deciding"]
        | none => ["user_deciding"]) := by
    rw [htr]
    cases hed : getEditorReviewer reviewers <;>
      simp [phasesOf_cons_phase, phasesOf_cons_synth, phasesOf_append,
        phasesOf_reviewerEvents, phasesOf_nil]
  refine ⟨htr, hph, ?_, ?_,
    runFull_phase reviewers reviewerIds content responses editorResponse s0 cr h hne,
    runFull_councilFeedback reviewers reviewerIds content responses editorResponse s0
      cr h hne⟩
  · rw [hph]
    cases hed : getEditorReviewer reviewers <;> simp
  · rw [hph]
    cases hed : getEditorReviewer reviewers <;> simp

/-- Witness for C7: a run with three council reviewers and an enabled
editor passes through all three forward phases. -/
theorem C7_phases_witness :
    phasesOf (runFullCouncilReview [rvA1, rvB, rvA2, rvEd] ["a1", "b", "a2", "ed"]
        docTwoLines allOk (some c9Response) idleState).2 =
      ["council_reviewing", "editor_synthesizing", "user_deciding"] ∧
    (runFullCouncilReview [rvA1, rvB, rvA2, rvEd] ["a1", "b", "a2", "ed"] docTwoLines
        allOk (some c9Response) idleState).1.reviewPhase = "user_deciding" := by
  have h := C7_phases [rvA1, rvB, rvA2, rvEd] ["a1", "b", "a2", "ed"] docTwoLines
    allOk (some c9Response) idleState [rvA1, rvB, rvA2] (by decide) (by simp) rfl
  refine ⟨?_, h.2.2.2.2.1⟩
  rw [h.2.1]
  rfl
